import Mathlib

/-!
Verification development for the solar-power-backend service (src/server.js).

The service is a single Express handler file over PostgreSQL.  We embed the
request handlers and the SQL semantics they rely on as pure Lean functions over
an explicit database state:

* `solar_panels` rows (table created at src/server.js lines 25-37) are
  `Reading` values; the server-assigned `timestamp` column (DEFAULT
  CURRENT_TIMESTAMP) is modelled by a strictly increasing server clock,
  one tick per executed INSERT statement.
* `daily_stats` rows (lines 39-50, UNIQUE date) are `DailyStat` values; the
  `INSERT ... ON CONFLICT (date) DO UPDATE` statement (lines 139-150) is
  embedded as `upsertStats`.
* The JavaScript comparisons `p.dirtLevel < 10` and `p.dirtLevel >= 30`
  (lines 136-137) go through ECMAScript abstract relational comparison, so
  `dirtLevel` is modelled as a JSON-ish `JsValue` together with the relevant
  fragment of ECMA-262 ToNumber (`toNumber`).
-/

/-- A JavaScript value as it can appear in a JSON request body field (plus
`undefined` for an absent property).  Only the shapes relevant to the
`dirtLevel` comparisons are modelled; JS numbers are restricted to integers,
which is all the handlers compare against. -/
inductive JsValue where
  | undefined : JsValue
  | null : JsValue
  | boolean : Bool → JsValue
  | number : Int → JsValue
  | string : String → JsValue
deriving DecidableEq

/-- ECMA-262 ToNumber restricted to `JsValue`; `none` stands for NaN.
`undefined` gives NaN, `null` gives 0, booleans give 0/1, strings are trimmed
and parsed (empty after trimming gives 0, non-numeric gives NaN; only
integer-valued numeric strings are modelled). -/
def toNumber : JsValue → Option Int
  | JsValue.undefined => none
  | JsValue.null => some 0
  | JsValue.boolean b => some (if b then 1 else 0)
  | JsValue.number n => some n
  | JsValue.string s => if s.trim = "" then some 0 else s.trim.toInt?

/-- JavaScript relational comparison `v < n` against a number literal: both
sides are coerced with ToNumber and any NaN makes the comparison false
(src/server.js line 136). -/
def jsLtNum (v : JsValue) (n : Int) : Bool :=
  match toNumber v with
  | some m => decide (m < n)
  | none => false

/-- JavaScript relational comparison `v >= n` against a number literal; NaN on
either side makes it false (src/server.js line 137). -/
def jsGeNum (v : JsValue) (n : Int) : Bool :=
  match toNumber v with
  | some m => decide (n ≤ m)
  | none => false

/-- One element of the `panels` array of a POST /api/solar-data body
(src/server.js lines 117-130).  `dirtLevel` keeps its raw JavaScript value
because lines 136-137 compare it with JS coercion semantics; the remaining
fields are only copied into the INSERT and are modelled at their expected
types. -/
structure PanelInput where
  name : String
  power : Int
  efficiency : Int
  status : String
  temp : Int
  dirtLevel : JsValue
  dustAccumulation : String
deriving DecidableEq

/-- A persisted row of the `solar_panels` table (src/server.js lines 25-37).
`id` is the SERIAL primary key and `timestamp` the server-assigned
CURRENT_TIMESTAMP default, modelled as ticks of the server clock.  The
`dirt_level` column stores the submitted value (its INTEGER coercion by the
database is not modelled since no handler reads it back for computation). -/
structure Reading where
  id : Nat
  name : String
  power : Int
  efficiency : Int
  status : String
  temp : Int
  dirt_level : JsValue
  dust_accumulation : String
  timestamp : Nat
deriving DecidableEq

/-- A persisted row of the `daily_stats` table (src/server.js lines 39-50).
`date` is UNIQUE; `total_energy` exists in the schema but is never written by
any handler, so it is NULL (`none`) on insert and untouched on update. -/
structure DailyStat where
  id : Nat
  date : String
  total_power : Int
  avg_efficiency : Int
  total_energy : Option Int
  clean_panels : Nat
  dirty_panels : Nat
  timestamp : Nat
deriving DecidableEq

/-- The full persistent state: the two tables, the server clock (source of
CURRENT_TIMESTAMP values, advancing at least one tick per INSERT), and the two
SERIAL sequences. -/
structure DB where
  solar_panels : List Reading
  daily_stats : List DailyStat
  clock : Nat
  nextId : Nat
  nextStatId : Nat

/-- The state right after `initDatabase` (src/server.js lines 23-58): both
tables empty, SERIAL sequences at 1. -/
def initialDB : DB :=
  { solar_panels := [], daily_stats := [], clock := 0, nextId := 1, nextStatId := 1 }

/-- One INSERT INTO solar_panels ... RETURNING * (src/server.js lines 118-131):
appends a row carrying the submitted fields, a fresh SERIAL id and the current
clock as `timestamp`, then advances clock and sequence. -/
def insertPanel (db : DB) (p : PanelInput) : DB × Reading :=
  let r : Reading :=
    { id := db.nextId, name := p.name, power := p.power, efficiency := p.efficiency,
      status := p.status, temp := p.temp, dirt_level := p.dirtLevel,
      dust_accumulation := p.dustAccumulation, timestamp := db.clock }
  ({ db with solar_panels := db.solar_panels ++ [r],
             clock := db.clock + 1, nextId := db.nextId + 1 }, r)

/-- The `for (const panel of panels)` insertion loop (src/server.js
lines 117-133), returning the final state and the inserted rows in input
order. -/
def appendMany : DB → List PanelInput → DB × List Reading
  | db, [] => (db, [])
  | db, p :: rest =>
    ((appendMany (insertPanel db p).1 rest).1,
     (insertPanel db p).2 :: (appendMany (insertPanel db p).1 rest).2)

/-- `panels.filter(p => p.dirtLevel < 10).length` (src/server.js line 136),
computed from the submitted batch. -/
def cleanCount (panels : List PanelInput) : Nat :=
  (panels.filter (fun p => jsLtNum p.dirtLevel 10)).length

/-- `panels.filter(p => p.dirtLevel >= 30).length` (src/server.js line 137),
computed from the submitted batch. -/
def dirtyCount (panels : List PanelInput) : Nat :=
  (panels.filter (fun p => jsGeNum p.dirtLevel 30)).length

/-- The DO UPDATE arm of the daily_stats upsert (src/server.js lines 143-148):
on the conflicting row it replaces the four data fields and refreshes the
`timestamp` column; `id`, `date` and `total_energy` are untouched. -/
def updateRow (d : String) (tp ae : Int) (cc dc : Nat) (ts : Nat) (s : DailyStat) : DailyStat :=
  if s.date == d then
    { s with total_power := tp, avg_efficiency := ae,
             clean_panels := cc, dirty_panels := dc, timestamp := ts }
  else s

/-- INSERT INTO daily_stats ... ON CONFLICT (date) DO UPDATE (src/server.js
lines 139-150).  Because `date` is UNIQUE, the statement updates the existing
row for `d` when one exists and inserts a fresh row otherwise.  The SERIAL
sequence value `newId` is consumed either way (as PostgreSQL does). -/
def upsertStats (stats : List DailyStat) (d : String) (tp ae : Int) (cc dc : Nat)
    (ts : Nat) (newId : Nat) : List DailyStat :=
  if stats.any (fun s => s.date == d) then
    stats.map (updateRow d tp ae cc dc ts)
  else
    stats ++ [{ id := newId, date := d, total_power := tp, avg_efficiency := ae,
                total_energy := none, clean_panels := cc, dirty_panels := dc,
                timestamp := ts }]

/-- The `panels` field of a POST body as seen by the guard
`!panels || !Array.isArray(panels)` (src/server.js line 108): it is either
absent/undefined, some non-array value (falsy or truthy, both rejected), or an
actual array. -/
inductive BodyPanels where
  | missing : BodyPanels
  | nonArray : BodyPanels
  | arr : List PanelInput → BodyPanels

/-- A POST /api/solar-data request body: `{panels, totalPower, avgEfficiency}`
(src/server.js line 106).  The two scalars are forwarded verbatim into the
upsert, so they are modelled at their expected numeric type. -/
structure Body where
  panels : BodyPanels
  totalPower : Int
  avgEfficiency : Int

/-- The 400 error message of the POST handler (src/server.js line 111). -/
def invalidPanelsMsg : String := "Invalid data format. Expected panels array."

/-- The POST /api/solar-data handler (src/server.js lines 104-165): reject a
missing or non-array `panels` with a 400 before any write; otherwise insert
every panel row, then upsert the daily_stats row for `today` with the
caller-supplied totals and the batch-derived clean/dirty counts.  `today` is
the server-clock calendar date string (line 135). -/
def postSolarData (db : DB) (body : Body) (today : String) :
    DB × Except String (List Reading) :=
  match body.panels with
  | BodyPanels.missing => (db, Except.error invalidPanelsMsg)
  | BodyPanels.nonArray => (db, Except.error invalidPanelsMsg)
  | BodyPanels.arr panels =>
    let db1 := (appendMany db panels).1
    ({ db1 with
        daily_stats := upsertStats db1.daily_stats today body.totalPower
          body.avgEfficiency (cleanCount panels) (dirtyCount panels)
          db1.clock db1.nextStatId,
        nextStatId := db1.nextStatId + 1 },
     Except.ok (appendMany db panels).2)

/-- PostgreSQL's error when a textual parameter cannot be read as an integer,
which is what a non-numeric LIMIT parameter produces. -/
def invalidLimitMsg : String := "invalid input syntax for type bigint"

/-- Decimal value of a digit string. -/
def digitsToNat (cs : List Char) : Nat :=
  cs.foldl (fun acc c => acc * 10 + (c.toNat - 48)) 0

/-- PostgreSQL's reading of a textual integer bind parameter, restricted to
plain digit strings (sign and whitespace handling are not exercised by any
handler input considered here): non-numeric text yields no integer and the
query fails. -/
def pgParseNat (s : String) : Option Nat :=
  if !s.data.isEmpty && s.data.all Char.isDigit then some (digitsToNat s.data)
  else none

/-- Resolution of a limit-style query parameter: JavaScript
`req.query.limit || dflt` (src/server.js lines 79 and 171) substitutes the
default only for a missing or empty (falsy) parameter; any other string is
forwarded as the bind parameter, where PostgreSQL parses it as an integer and
errors out on non-numeric text. -/
def parseLimitParam (q : Option String) (dflt : Nat) : Except String Nat :=
  match q with
  | none => Except.ok dflt
  | some s =>
    if s = "" then Except.ok dflt
    else
      match pgParseNat s with
      | some n => Except.ok n
      | none => Except.error invalidLimitMsg

/-- The ORDER BY key of the latest-per-panel query (src/server.js line 83):
name ascending, then timestamp descending. -/
def nameTs (a b : Reading) : Prop :=
  a.name < b.name ∨ (a.name = b.name ∧ b.timestamp ≤ a.timestamp)

instance : DecidableRel nameTs := fun a b => by
  unfold nameTs
  exact inferInstance

instance : IsTotal Reading nameTs := by
  constructor
  intro a b
  rcases lt_trichotomy a.name b.name with h | h | h
  · exact Or.inl (Or.inl h)
  · rcases Nat.le_total b.timestamp a.timestamp with ht | ht
    · exact Or.inl (Or.inr ⟨h, ht⟩)
    · exact Or.inr (Or.inr ⟨h.symm, ht⟩)
  · exact Or.inr (Or.inl h)

instance : IsTrans Reading nameTs := by
  constructor
  intro a b c hab hbc
  rcases hab with hab | ⟨hab, tab⟩
  · rcases hbc with hbc | ⟨hbc, _⟩
    · exact Or.inl (lt_trans hab hbc)
    · exact Or.inl (hbc ▸ hab)
  · rcases hbc with hbc | ⟨hbc, tbc⟩
    · exact Or.inl (hab ▸ hbc)
    · exact Or.inr ⟨hab.trans hbc, le_trans tbc tab⟩

/-- The ORDER BY key of the history query (src/server.js line 176): timestamp
descending. -/
def tsDesc (a b : Reading) : Prop := b.timestamp ≤ a.timestamp

instance : DecidableRel tsDesc := fun a b => by
  unfold tsDesc
  exact inferInstance

instance : IsTotal Reading tsDesc :=
  ⟨fun a b => Nat.le_total b.timestamp a.timestamp⟩

instance : IsTrans Reading tsDesc :=
  ⟨fun _ _ _ hab hbc => le_trans hbc hab⟩

/-- SELECT DISTINCT ON (name): keep the first row of each name group in the
already-sorted row list, scanning left to right; `seen` accumulates the names
already emitted. -/
def dedupByName : List String → List Reading → List Reading
  | _, [] => []
  | seen, r :: rest =>
    if r.name ∈ seen then dedupByName seen rest
    else r :: dedupByName (r.name :: seen) rest

/-- The latest-per-panel query (src/server.js lines 80-86):
SELECT DISTINCT ON (name) * FROM solar_panels ORDER BY name, timestamp DESC
LIMIT limit. -/
def latestPerPanel (db : DB) (limit : Nat) : List Reading :=
  (dedupByName [] (List.insertionSort nameTs db.solar_panels)).take limit

/-- The GET /api/solar-data handler (src/server.js lines 77-101): resolve the
limit parameter (default 100), run the latest-per-panel query; a store-level
failure (e.g. unparsable limit) surfaces as a 500. -/
def getSolarData (db : DB) (limitQ : Option String) : Except String (List Reading) :=
  (parseLimitParam limitQ 100).map (fun n => latestPerPanel db n)

/-- The history query (src/server.js lines 173-179): SELECT * FROM
solar_panels WHERE name = panelName ORDER BY timestamp DESC LIMIT limit. -/
def historyFor (db : DB) (name : String) (limit : Nat) : List Reading :=
  (List.insertionSort tsDesc (db.solar_panels.filter (fun r => r.name == name))).take limit

/-- The GET /api/solar-data/:panelName handler (src/server.js lines 168-194):
resolve the limit parameter (default 10) and run the history query. -/
def getPanelHistory (db : DB) (name : String) (limitQ : Option String) :
    Except String (List Reading) :=
  (parseLimitParam limitQ 10).map (fun n => historyFor db name n)

/-- Seconds per day, the unit factor of INTERVAL days in the cleanup query. -/
def secondsPerDay : Nat := 86400

/-- The DELETE of the cleanup endpoint (src/server.js lines 227-231) for an
already-numeric `days`: remove every reading with timestamp < NOW() - days
days and report the number of deleted rows (`result.rowCount` of RETURNING *).
NOW() is the current server clock. -/
def purgeOlderThan (db : DB) (days : Nat) : DB × Nat :=
  ({ db with solar_panels :=
      db.solar_panels.filter (fun r => decide (db.clock - days * secondsPerDay ≤ r.timestamp)) },
   (db.solar_panels.filter (fun r => decide (r.timestamp < db.clock - days * secondsPerDay))).length)

/-- The query text built by the DELETE /api/solar-data/cleanup/:days handler
(src/server.js lines 225-231): the raw `days` route parameter is spliced into
the template literal verbatim, with no validation or parameterization.  The
SQL quote characters around the interval are omitted from the model; the
splicing of `days` is verbatim as in the source. -/
def cleanupQueryText (days : String) : String :=
  "DELETE FROM solar_panels WHERE timestamp < NOW() - INTERVAL " ++ days ++
    " days RETURNING *"

/-- One state-changing request against the service. -/
inductive Op where
  | post : Body → String → Op
  | cleanup : Nat → Op

/-- Apply one state-changing request to the database state; a rejected POST
leaves the state unchanged. -/
def applyOp (db : DB) : Op → DB
  | Op.post body today => (postSolarData db body today).1
  | Op.cleanup days => (purgeOlderThan db days).1

/-- The state after a sequence of state-changing requests run against the
freshly initialized service. -/
def runOps (ops : List Op) : DB :=
  ops.foldl applyOp initialDB

/-- The UNIQUE(date) invariant of daily_stats: no two rows share a date. -/
def AtMostOnePerDate (stats : List DailyStat) : Prop :=
  stats.Pairwise (fun a b => a.date ≠ b.date)

/-- Well-formedness of the readings table as produced by the handlers: rows
carry strictly increasing server timestamps, all in the past of the clock. -/
def WF (db : DB) : Prop :=
  db.solar_panels.Pairwise (fun a b => a.timestamp < b.timestamp) ∧
    ∀ r ∈ db.solar_panels, r.timestamp < db.clock

/-- Concrete panel of the worked example in the spec: clean (dirtLevel 5). -/
def pw1 : PanelInput :=
  { name := "P1", power := 10, efficiency := 90, status := "online", temp := 40,
    dirtLevel := JsValue.number 5, dustAccumulation := "low" }

/-- Concrete panel of the worked example in the spec: dirty (dirtLevel 35). -/
def pw2 : PanelInput :=
  { name := "P2", power := 8, efficiency := 70, status := "online", temp := 45,
    dirtLevel := JsValue.number 35, dustAccumulation := "high" }

/-- A concrete successful ingest request used to build sample states. -/
def opW : Op :=
  Op.post { panels := BodyPanels.arr [pw1, pw2], totalPower := 18, avgEfficiency := 80 }
    "2026-10-12"

/-- Sample state: the fresh service after one two-panel ingest. -/
def dbW : DB := runOps [opW]

/-- A panel whose dirtLevel is JSON null: not a number, yet JavaScript
coerces null to 0 in relational comparisons. -/
def nullDirtPanel : PanelInput :=
  { name := "P9", power := 5, efficiency := 50, status := "online", temp := 25,
    dirtLevel := JsValue.null, dustAccumulation := "medium" }

/-- A panel whose dirtLevel property is absent, i.e. reads as undefined. -/
def undefDirtPanel : PanelInput :=
  { name := "P7", power := 3, efficiency := 40, status := "fault", temp := 20,
    dirtLevel := JsValue.undefined, dustAccumulation := "high" }

lemma updateRow_date (d : String) (tp ae : Int) (cc dc : Nat) (ts : Nat) (s : DailyStat) :
    (updateRow d tp ae cc dc ts s).date = s.date := by
  unfold updateRow
  split <;> rfl

lemma filter_date_length_one (stats : List DailyStat) (d : String)
    (hp : AtMostOnePerDate stats) (ha : stats.any (fun s => s.date == d) = true) :
    (stats.filter (fun s => s.date == d)).length = 1 := by
  induction stats with
  | nil => simp at ha
  | cons a rest ih =>
    rcases List.pairwise_cons.mp hp with ⟨hhead, htail⟩
    by_cases h : (a.date == d) = true
    · have hrest : rest.filter (fun s => s.date == d) = [] := by
        apply List.filter_eq_nil_iff.mpr
        intro b hb hbd
        exact hhead b hb ((eq_of_beq h).trans (eq_of_beq hbd).symm)
      simp [List.filter_cons, h, hrest]
    · have ha' : rest.any (fun s => s.date == d) = true := by
        rcases List.any_eq_true.mp ha with ⟨x, hx, hxd⟩
        rcases List.mem_cons.mp hx with rfl | hx
        · exact absurd hxd h
        · exact List.any_eq_true.mpr ⟨x, hx, hxd⟩
      simp only [List.filter_cons, h, if_neg, Bool.false_eq_true, reduceIte]
      exact ih htail ha'

lemma upsert_pres (stats : List DailyStat) (d : String) (tp ae : Int) (cc dc : Nat)
    (ts i : Nat) (hp : AtMostOnePerDate stats) :
    AtMostOnePerDate (upsertStats stats d tp ae cc dc ts i) := by
  unfold upsertStats
  by_cases hany : stats.any (fun s => s.date == d) = true
  · rw [if_pos hany]
    apply List.pairwise_map.mpr
    apply hp.imp
    intro a b hab
    rw [updateRow_date, updateRow_date]
    exact hab
  · rw [if_neg hany]
    apply List.pairwise_append.mpr
    refine ⟨hp, List.pairwise_singleton _ _, ?_⟩
    intro a ha b hb
    rcases List.mem_singleton.mp hb with rfl
    intro he
    exact hany (List.any_eq_true.mpr ⟨a, ha, by rw [he]; exact beq_self_eq_true d⟩)

lemma upsert_row_fields (stats : List DailyStat) (d : String) (tp ae : Int) (cc dc : Nat)
    (ts i : Nat) (hp : AtMostOnePerDate stats) :
    ((upsertStats stats d tp ae cc dc ts i).filter (fun r => r.date == d)).length = 1 ∧
    ∀ r ∈ upsertStats stats d tp ae cc dc ts i, r.date = d →
      r.total_power = tp ∧ r.avg_efficiency = ae ∧ r.clean_panels = cc ∧
        r.dirty_panels = dc ∧ r.timestamp = ts := by
  unfold upsertStats
  by_cases hany : stats.any (fun s => s.date == d) = true
  · rw [if_pos hany]
    constructor
    · rw [List.filter_map]
      have hcongr : stats.filter ((fun r => r.date == d) ∘ updateRow d tp ae cc dc ts) =
          stats.filter (fun s => s.date == d) :=
        List.filter_congr (fun x _ => by
          simp only [Function.comp_apply, updateRow_date])
      rw [hcongr, List.length_map]
      exact filter_date_length_one stats d hp hany
    · intro r hr hrd
      rcases List.mem_map.mp hr with ⟨x, hx, rfl⟩
      unfold updateRow at hrd ⊢
      by_cases hxd : (x.date == d) = true
      · simp [hxd]
      · rw [if_neg (by simp [hxd])] at hrd
        exact absurd (by rw [hrd]; exact beq_self_eq_true d) hxd
  · rw [if_neg hany]
    have hnone : ∀ b ∈ stats, ¬ (b.date == d) = true := by
      intro b hb hbd
      exact hany (List.any_eq_true.mpr ⟨b, hb, hbd⟩)
    constructor
    · rw [List.filter_append]
      rw [List.filter_eq_nil_iff.mpr hnone]
      simp
    · intro r hr hrd
      rcases List.mem_append.mp hr with hr | hr
      · exact absurd (by rw [hrd]; exact beq_self_eq_true d) (hnone r hr)
      · rcases List.mem_singleton.mp hr with rfl
        exact ⟨rfl, rfl, rfl, rfl, rfl⟩

lemma upsert_other_dates (stats : List DailyStat) (d : String) (tp ae : Int) (cc dc : Nat)
    (ts i : Nat) :
    (upsertStats stats d tp ae cc dc ts i).filter (fun r => r.date != d) =
      stats.filter (fun r => r.date != d) := by
  unfold upsertStats
  by_cases hany : stats.any (fun s => s.date == d) = true
  · rw [if_pos hany, List.filter_map]
    have hcongr : stats.filter ((fun r => r.date != d) ∘ updateRow d tp ae cc dc ts) =
        stats.filter (fun r => r.date != d) :=
      List.filter_congr (fun x _ => by
        simp only [Function.comp_apply, bne, updateRow_date])
    rw [hcongr]
    have hmap : (stats.filter (fun r => r.date != d)).map (updateRow d tp ae cc dc ts) =
        (stats.filter (fun r => r.date != d)).map id :=
      List.map_congr_left (fun x hx => by
        have h2 := (List.mem_filter.mp hx).2
        have hne : (x.date == d) = false := by
          cases hb : x.date == d
          · rfl
          · rw [bne, hb] at h2
            simp at h2
        simp [updateRow, hne])
    rw [hmap, List.map_id]
  · rw [if_neg hany, List.filter_append]
    simp

lemma appendMany_stats : ∀ (ps : List PanelInput) (db : DB),
    (appendMany db ps).1.daily_stats = db.daily_stats := by
  intro ps
  induction ps with
  | nil => intro db; rfl
  | cons p rest ih => intro db; exact ih (insertPanel db p).1

lemma insertPanel_wf (db : DB) (p : PanelInput) (h : WF db) : WF (insertPanel db p).1 := by
  obtain ⟨h1, h2⟩ := h
  constructor
  · apply List.pairwise_append.mpr
    refine ⟨h1, List.pairwise_singleton _ _, ?_⟩
    intro a ha b hb
    rcases List.mem_singleton.mp hb with rfl
    exact h2 a ha
  · intro r hr
    rcases List.mem_append.mp hr with hr | hr
    · exact Nat.lt_succ_of_lt (h2 r hr)
    · rcases List.mem_singleton.mp hr with rfl
      exact Nat.lt_succ_self _

lemma appendMany_wf : ∀ (ps : List PanelInput) (db : DB), WF db → WF (appendMany db ps).1 := by
  intro ps
  induction ps with
  | nil => intro db h; exact h
  | cons p rest ih => intro db h; exact ih (insertPanel db p).1 (insertPanel_wf db p h)

lemma wf_initialDB : WF initialDB := by
  constructor
  · exact List.Pairwise.nil
  · intro r hr
    exact absurd hr (List.not_mem_nil r)

lemma wf_applyOp (db : DB) (op : Op) (h : WF db) : WF (applyOp db op) := by
  cases op with
  | post body today =>
    rcases body with ⟨panels, tp, ae⟩
    cases panels with
    | missing => exact h
    | nonArray => exact h
    | arr ps => exact appendMany_wf ps db h
  | cleanup days =>
    obtain ⟨h1, h2⟩ := h
    constructor
    · exact List.Pairwise.sublist (List.filter_sublist _) h1
    · intro r hr
      exact h2 r (List.mem_filter.mp hr).1

lemma wf_runOps (ops : List Op) : WF (runOps ops) := by
  have key : ∀ (l : List Op) (db : DB), WF db → WF (l.foldl applyOp db) := by
    intro l
    induction l with
    | nil => intro db h; exact h
    | cons op rest ih => intro db h; exact ih (applyOp db op) (wf_applyOp db op h)
  exact key ops initialDB wf_initialDB

lemma inv_applyOp (db : DB) (op : Op) (h : AtMostOnePerDate db.daily_stats) :
    AtMostOnePerDate ((applyOp db op).daily_stats) := by
  cases op with
  | post body today =>
    rcases body with ⟨panels, tp, ae⟩
    cases panels with
    | missing => exact h
    | nonArray => exact h
    | arr ps =>
      have hst : AtMostOnePerDate (appendMany db ps).1.daily_stats := by
        rw [appendMany_stats ps db]
        exact h
      exact upsert_pres _ today tp ae (cleanCount ps) (dirtyCount ps) _ _ hst
  | cleanup days => exact h

lemma inv_foldl : ∀ (l : List Op) (db : DB), AtMostOnePerDate db.daily_stats →
    AtMostOnePerDate ((l.foldl applyOp db).daily_stats) := by
  intro l
  induction l with
  | nil => intro db h; exact h
  | cons op rest ih => intro db h; exact ih (applyOp db op) (inv_applyOp db op h)

lemma clean_dirty_disjoint (p : PanelInput) :
    ¬(jsLtNum p.dirtLevel 10 = true ∧ jsGeNum p.dirtLevel 30 = true) := by
  unfold jsLtNum jsGeNum
  cases h : toNumber p.dirtLevel with
  | none => simp
  | some m =>
    rintro ⟨h1, h2⟩
    simp only [decide_eq_true_eq] at h1 h2
    omega

lemma length_filter_disjoint {α : Type} (p q : α → Bool) (l : List α)
    (h : ∀ x, ¬(p x = true ∧ q x = true)) :
    (l.filter p).length + (l.filter q).length ≤ l.length := by
  induction l with
  | nil => simp
  | cons a rest ih =>
    by_cases hp : p a = true
    · have hq : q a = false := by
        cases hqa : q a
        · rfl
        · exact absurd ⟨hp, hqa⟩ (h a)
      simp [List.filter_cons, hp, hq]
      omega
    · have hp' : p a = false := Bool.not_eq_true _ |>.mp hp
      by_cases hq : q a = true
      · simp [List.filter_cons, hp', hq]
        omega
      · have hq' : q a = false := Bool.not_eq_true _ |>.mp hq
        simp [List.filter_cons, hp', hq']
        omega

lemma dedup_sublist : ∀ (seen : List String) (l : List Reading),
    List.Sublist (dedupByName seen l) l := by
  intro seen l
  induction l generalizing seen with
  | nil => exact List.Sublist.refl []
  | cons r rest ih =>
    simp only [dedupByName]
    by_cases h : r.name ∈ seen
    · rw [if_pos h]
      exact (ih seen).cons r
    · rw [if_neg h]
      exact (ih (r.name :: seen)).cons₂ r

lemma dedup_not_seen : ∀ (seen : List String) (l : List Reading) (r : Reading),
    r ∈ dedupByName seen l → r.name ∉ seen := by
  intro seen l
  induction l generalizing seen with
  | nil =>
    intro r hr
    simp [dedupByName] at hr
  | cons a rest ih =>
    intro r hr
    simp only [dedupByName] at hr
    by_cases h : a.name ∈ seen
    · rw [if_pos h] at hr
      exact ih seen r hr
    · rw [if_neg h] at hr
      rcases List.mem_cons.mp hr with rfl | hr
      · exact h
      · intro hs
        exact ih (a.name :: seen) r hr (List.mem_cons_of_mem _ hs)

lemma dedup_names_distinct : ∀ (seen : List String) (l : List Reading),
    (dedupByName seen l).Pairwise (fun a b => a.name ≠ b.name) := by
  intro seen l
  induction l generalizing seen with
  | nil => exact List.Pairwise.nil
  | cons a rest ih =>
    simp only [dedupByName]
    by_cases h : a.name ∈ seen
    · rw [if_pos h]
      exact ih seen
    · rw [if_neg h]
      apply List.pairwise_cons.mpr
      refine ⟨?_, ih (a.name :: seen)⟩
      intro b hb he
      exact dedup_not_seen _ _ b hb (List.mem_cons.mpr (Or.inl he.symm))

lemma dedup_max : ∀ (seen : List String) (l : List Reading), l.Pairwise nameTs →
    ∀ r ∈ dedupByName seen l, ∀ x ∈ l, x.name = r.name → x.timestamp ≤ r.timestamp := by
  intro seen l
  induction l generalizing seen with
  | nil =>
    intro _ r hr
    simp [dedupByName] at hr
  | cons a rest ih =>
    intro hs r hr x hx hxe
    rcases List.pairwise_cons.mp hs with ⟨hhead, htail⟩
    simp only [dedupByName] at hr
    by_cases h : a.name ∈ seen
    · rw [if_pos h] at hr
      have hns : r.name ∉ seen := dedup_not_seen seen rest r hr
      rcases List.mem_cons.mp hx with rfl | hx
      · exact absurd (hxe ▸ h) hns
      · exact ih seen htail r hr x hx hxe
    · rw [if_neg h] at hr
      rcases List.mem_cons.mp hr with rfl | hr
      · rcases List.mem_cons.mp hx with rfl | hx
        · exact le_refl _
        · rcases hhead x hx with hlt | hts
          · rw [hxe] at hlt
            exact absurd hlt (lt_irrefl _)
          · exact hts.2
      · have hns : r.name ∉ r.name :: seen → False := fun hc => hc (List.mem_cons_self _ _)
        have hnotin : r.name ∉ a.name :: seen := dedup_not_seen (a.name :: seen) rest r hr
        have hne : r.name ≠ a.name := fun he => hnotin (List.mem_cons.mpr (Or.inl he))
        rcases List.mem_cons.mp hx with rfl | hx
        · exact absurd hxe.symm hne
        · exact ih (a.name :: seen) htail r hr x hx hxe

/-- C1: upserting the same date twice replaces totalPower, avgEfficiency,
cleanCount and dirtyCount wholesale and refreshes the row timestamp with the
second call's values: afterwards exactly one daily_stats row carries date d,
its four data fields and timestamp are exactly those of the second call (no
merge or accumulation with the first call's values), and rows of every other
date are untouched. -/
theorem upsert_second_call_replaces (stats : List DailyStat) (d : String)
    (tp1 ae1 : Int) (cc1 dc1 t1 i1 : Nat) (tp2 ae2 : Int) (cc2 dc2 t2 i2 : Nat)
    (hp : AtMostOnePerDate stats) :
    ((upsertStats (upsertStats stats d tp1 ae1 cc1 dc1 t1 i1) d tp2 ae2 cc2 dc2 t2 i2).filter
        (fun r => r.date == d)).length = 1 ∧
    (∀ r ∈ upsertStats (upsertStats stats d tp1 ae1 cc1 dc1 t1 i1) d tp2 ae2 cc2 dc2 t2 i2,
        r.date = d → r.total_power = tp2 ∧ r.avg_efficiency = ae2 ∧
          r.clean_panels = cc2 ∧ r.dirty_panels = dc2 ∧ r.timestamp = t2) ∧
    (upsertStats (upsertStats stats d tp1 ae1 cc1 dc1 t1 i1) d tp2 ae2 cc2 dc2 t2 i2).filter
        (fun r => r.date != d) = stats.filter (fun r => r.date != d) := by
  have hp1 := upsert_pres stats d tp1 ae1 cc1 dc1 t1 i1 hp
  obtain ⟨hl, hf⟩ := upsert_row_fields _ d tp2 ae2 cc2 dc2 t2 i2 hp1
  refine ⟨hl, hf, ?_⟩
  exact (upsert_other_dates _ d tp2 ae2 cc2 dc2 t2 i2).trans
    (upsert_other_dates stats d tp1 ae1 cc1 dc1 t1 i1)

/-- Witness for C1 at a concrete input: on the empty table, upsert the date
twice; exactly one row for that date remains. -/
theorem upsert_second_call_replaces_witness :
    ((upsertStats (upsertStats [] "2026-10-12" 18 80 1 1 5 1)
        "2026-10-12" 25 75 0 2 9 2).filter
      (fun r => r.date == "2026-10-12")).length = 1 :=
  (upsert_second_call_replaces [] "2026-10-12" 18 80 1 1 5 1 25 75 0 2 9 2
    List.Pairwise.nil).1

/-- C2: the daily_stats table never holds two rows with the same date: the
uniqueness invariant is preserved by every single operation, and it holds
after every sequence of operations run against the initialized service. -/
theorem daily_aggregate_unique :
    (∀ (db : DB) (op : Op), AtMostOnePerDate db.daily_stats →
        AtMostOnePerDate ((applyOp db op).daily_stats)) ∧
    ∀ ops : List Op, AtMostOnePerDate ((runOps ops).daily_stats) := by
  constructor
  · exact inv_applyOp
  · intro ops
    exact inv_foldl ops initialDB List.Pairwise.nil

/-- C3: for an ingested batch, the clean count is the number of submitted
panels passing the JS test dirtLevel < 10 and the dirty count the number
passing dirtLevel >= 30, their sum never exceeds the batch size, and the
daily_stats row written for today carries exactly these batch-derived counts. -/
theorem ingest_counts_from_batch (db : DB) (panels : List PanelInput) (tp ae : Int)
    (today : String) (hp : AtMostOnePerDate db.daily_stats) :
    cleanCount panels + dirtyCount panels ≤ panels.length ∧
    ((postSolarData db ⟨BodyPanels.arr panels, tp, ae⟩ today).1.daily_stats.filter
          (fun r => r.date == today)).length = 1 ∧
    ∀ r ∈ (postSolarData db ⟨BodyPanels.arr panels, tp, ae⟩ today).1.daily_stats,
      r.date = today →
        r.clean_panels = cleanCount panels ∧ r.dirty_panels = dirtyCount panels := by
  have hst : AtMostOnePerDate (appendMany db panels).1.daily_stats := by
    rw [appendMany_stats panels db]
    exact hp
  obtain ⟨hl, hf⟩ := upsert_row_fields (appendMany db panels).1.daily_stats today tp ae
    (cleanCount panels) (dirtyCount panels) (appendMany db panels).1.clock
    (appendMany db panels).1.nextStatId hst
  refine ⟨?_, hl, ?_⟩
  · exact length_filter_disjoint _ _ panels (fun p => clean_dirty_disjoint p)
  · intro r hr hrd
    obtain ⟨_, _, hcc, hdc, _⟩ := hf r hr hrd
    exact ⟨hcc, hdc⟩

/-- Witness for C3 at the spec's worked example: one clean and one dirty
panel ingested into the fresh service yield exactly one daily_stats row for
the ingest date. -/
theorem ingest_counts_from_batch_witness :
    ((postSolarData initialDB ⟨BodyPanels.arr [pw1, pw2], 18, 80⟩
        "2026-10-12").1.daily_stats.filter
      (fun r => r.date == "2026-10-12")).length = 1 :=
  (ingest_counts_from_batch initialDB [pw1, pw2] 18 80 "2026-10-12" List.Pairwise.nil).2.1

/-- C4: a POST body whose panels field is missing or is not an array is
rejected with the 400 validation message before any write: the database state
is returned unchanged, so no reading row and no daily_stats row is created or
modified. -/
theorem invalid_panels_rejected (db : DB) (tp ae : Int) (today : String) :
    postSolarData db ⟨BodyPanels.missing, tp, ae⟩ today =
      (db, Except.error invalidPanelsMsg) ∧
    postSolarData db ⟨BodyPanels.nonArray, tp, ae⟩ today =
      (db, Except.error invalidPanelsMsg) :=
  ⟨rfl, rfl⟩

/-- C5: for every store state and limit, the latest-per-panel query returns at
most limit rows, with pairwise distinct panel names in strictly ascending
order (hence at most one row per name, sorted by name ascending), and every
returned row is a stored reading whose timestamp is maximal among all stored
readings of the same name. -/
theorem latestPerPanel_spec (db : DB) (limit : Nat) :
    (latestPerPanel db limit).length ≤ limit ∧
    (latestPerPanel db limit).Pairwise (fun a b => a.name < b.name) ∧
    ∀ r ∈ latestPerPanel db limit,
      r ∈ db.solar_panels ∧
        ∀ x ∈ db.solar_panels, x.name = r.name → x.timestamp ≤ r.timestamp := by
  have hsorted : (List.insertionSort nameTs db.solar_panels).Pairwise nameTs :=
    List.sorted_insertionSort nameTs db.solar_panels
  have hperm := List.perm_insertionSort nameTs db.solar_panels
  refine ⟨?_, ?_, ?_⟩
  · unfold latestPerPanel
    exact List.length_take_le _ _
  · have h1 : (dedupByName [] (List.insertionSort nameTs db.solar_panels)).Pairwise nameTs :=
      List.Pairwise.sublist (dedup_sublist _ _) hsorted
    have h2 := dedup_names_distinct [] (List.insertionSort nameTs db.solar_panels)
    have h3 : (dedupByName [] (List.insertionSort nameTs db.solar_panels)).Pairwise
        (fun a b => a.name < b.name) := by
      apply (h1.and h2).imp
      intro a b hab
      rcases hab.1 with h | h
      · exact h
      · exact absurd h.1 hab.2
    exact List.Pairwise.sublist (List.take_sublist _ _) h3
  · intro r hr
    have hrd : r ∈ dedupByName [] (List.insertionSort nameTs db.solar_panels) :=
      (List.take_sublist _ _).subset hr
    have hrs : r ∈ List.insertionSort nameTs db.solar_panels :=
      (dedup_sublist _ _).subset hrd
    refine ⟨hperm.mem_iff.mp hrs, ?_⟩
    intro x hx hxe
    exact dedup_max [] _ hsorted r hrd x (hperm.mem_iff.mpr hx) hxe

/-- C6: the history query returns only readings of the requested panel, in
strictly descending timestamp order, never more rows than the limit; the
handler resolves an absent limit parameter to the default 10. -/
theorem historyFor_spec (db : DB) (name : String) (limit : Nat) (h : WF db) :
    (∀ r ∈ historyFor db name limit, r.name = name) ∧
    (historyFor db name limit).Pairwise (fun a b => b.timestamp < a.timestamp) ∧
    (historyFor db name limit).length ≤ limit ∧
    getPanelHistory db name none = Except.ok (historyFor db name 10) := by
  obtain ⟨hw1, _⟩ := h
  have hperm := List.perm_insertionSort tsDesc
    (db.solar_panels.filter (fun r => r.name == name))
  have hsorted : (List.insertionSort tsDesc
      (db.solar_panels.filter (fun r => r.name == name))).Pairwise tsDesc :=
    List.sorted_insertionSort tsDesc _
  refine ⟨?_, ?_, ?_, rfl⟩
  · intro r hr
    unfold historyFor at hr
    have hrs := (List.take_sublist _ _).subset hr
    have hrf := hperm.mem_iff.mp hrs
    exact eq_of_beq (List.mem_filter.mp hrf).2
  · unfold historyFor
    have hft : (db.solar_panels.filter (fun r => r.name == name)).Pairwise
        (fun a b => a.timestamp < b.timestamp) := hw1.filter _
    have hnd : ((db.solar_panels.filter (fun r => r.name == name)).map
        (fun r => r.timestamp)).Nodup :=
      List.pairwise_map.mpr (hft.imp (fun hab => Nat.ne_of_lt hab))
    have hnds : ((List.insertionSort tsDesc
        (db.solar_panels.filter (fun r => r.name == name))).map
          (fun r => r.timestamp)).Nodup :=
      ((hperm.map (fun r => r.timestamp)).nodup_iff).mpr hnd
    have hne : (List.insertionSort tsDesc
        (db.solar_panels.filter (fun r => r.name == name))).Pairwise
          (fun a b => a.timestamp ≠ b.timestamp) :=
      List.pairwise_map.mp hnds
    have hstrict := (hsorted.and hne).imp
      (fun hab => lt_of_le_of_ne hab.1 hab.2.symm)
    exact List.Pairwise.sublist (List.take_sublist _ _) hstrict
  · unfold historyFor
    exact List.length_take_le _ _

/-- Witness for C6 at a concrete state: the two-panel sample state is
well-formed and the history of panel P1 with limit 10 has at most 10 rows. -/
theorem historyFor_spec_witness :
    (historyFor dbW "P1" 10).length ≤ 10 :=
  (historyFor_spec dbW "P1" 10 (wf_runOps [opW])).2.2.1

lemma length_filter_add_length_filter_not {α : Type} (p : α → Bool) (l : List α) :
    (l.filter p).length + (l.filter (fun a => !p a)).length = l.length := by
  induction l with
  | nil => rfl
  | cons a rest ih =>
    cases h : p a
    · simp [List.filter_cons, h]
      omega
    · simp [List.filter_cons, h]
      omega

lemma purge_pred_complement (c : Nat) (l : List Reading) :
    l.filter (fun r => decide (c ≤ r.timestamp)) =
      l.filter (fun r => !decide (r.timestamp < c)) :=
  List.filter_congr (fun r _ => by
    by_cases h : r.timestamp < c
    · simp [h, Nat.le_of_lt, Nat.not_le.mpr h]
    · simp [h, Nat.le_of_not_lt h])

/-- C8: the cleanup deletion for a numeric days value removes exactly the
readings with timestamp strictly before now minus days (surviving rows are the
stored rows at or after the cutoff), the reported count matches the rows
actually removed, days = 0 on a well-formed state removes every stored row
(all are strictly before now), and a second immediately following purge
deletes at most as many rows as remained after the first. -/
theorem purgeOlderThan_spec (db : DB) (days d2 : Nat) (h : WF db) :
    (∀ r ∈ (purgeOlderThan db days).1.solar_panels, r ∈ db.solar_panels) ∧
    (∀ r ∈ db.solar_panels,
        (r ∈ (purgeOlderThan db days).1.solar_panels ↔
          db.clock - days * secondsPerDay ≤ r.timestamp)) ∧
    (purgeOlderThan db days).2 + (purgeOlderThan db days).1.solar_panels.length =
      db.solar_panels.length ∧
    (purgeOlderThan db 0).1.solar_panels = [] ∧
    (purgeOlderThan db 0).2 = db.solar_panels.length ∧
    (purgeOlderThan (purgeOlderThan db days).1 d2).2 ≤
      (purgeOlderThan db days).1.solar_panels.length := by
  obtain ⟨_, h2⟩ := h
  refine ⟨?_, ?_, ?_, ?_, ?_, ?_⟩
  · intro r hr
    exact (List.mem_filter.mp hr).1
  · intro r hr
    unfold purgeOlderThan
    constructor
    · intro hm
      exact of_decide_eq_true (List.mem_filter.mp hm).2
    · intro hc
      exact List.mem_filter.mpr ⟨hr, decide_eq_true hc⟩
  · unfold purgeOlderThan
    rw [purge_pred_complement]
    exact length_filter_add_length_filter_not _ _
  · unfold purgeOlderThan
    apply List.filter_eq_nil_iff.mpr
    intro r hrm hdec
    have hlt : r.timestamp < db.clock := h2 r hrm
    have := of_decide_eq_true hdec
    simp only [Nat.zero_mul, Nat.sub_zero] at this
    omega
  · unfold purgeOlderThan
    have hall : db.solar_panels.filter
        (fun r => decide (r.timestamp < db.clock - 0 * secondsPerDay)) =
          db.solar_panels := by
      apply List.filter_eq_self.mpr
      intro r hrm
      apply decide_eq_true
      simp only [Nat.zero_mul, Nat.sub_zero]
      exact h2 r hrm
    rw [hall]
  · unfold purgeOlderThan
    exact List.length_filter_le _ _

/-- Witness for C8: on the well-formed two-panel sample state, purging with
days = 0 empties the readings table. -/
theorem purgeOlderThan_spec_witness :
    (purgeOlderThan dbW 0).1.solar_panels = [] :=
  (purgeOlderThan_spec dbW 0 0 (wf_runOps [opW])).2.2.2.1

/-- C7 (code bug): the cleanup handler performs no validation of the
caller-supplied days route parameter; the raw string, numeric or not, is
spliced verbatim into the DELETE query text, so a non-numeric value like abc
or a negative value like -5 reaches the database instead of failing with a
validation error. -/
theorem cleanup_days_unvalidated :
    cleanupQueryText "abc" =
      "DELETE FROM solar_panels WHERE timestamp < NOW() - INTERVAL abc days RETURNING *" ∧
    cleanupQueryText "-5" =
      "DELETE FROM solar_panels WHERE timestamp < NOW() - INTERVAL -5 days RETURNING *" :=
  ⟨rfl, rfl⟩

/-- C9 counterexample: with the non-numeric limit parameter abc the snapshot
request does not behave as if the limit were 100 (and does not succeed at
all): it returns the database integer-parse error, not the limit-100 result. -/
theorem limit_invalid_not_defaulted :
    getSolarData initialDB (some "abc") ≠ Except.ok (latestPerPanel initialDB 100) := by
  intro hc
  rw [show getSolarData initialDB (some "abc") = Except.error invalidLimitMsg from rfl] at hc
  exact Except.noConfusion hc

/-- C9 amended: the snapshot limit falls back to the default 100 only for an
absent or empty (falsy) parameter; a non-empty parameter that does not parse
as an integer is forwarded to the query and the request fails with the store's
parse error rather than defaulting. -/
theorem limit_default_falsy_only (db : DB) (s : String) (h1 : s ≠ "")
    (h2 : pgParseNat s = none) :
    getSolarData db none = Except.ok (latestPerPanel db 100) ∧
    getSolarData db (some "") = Except.ok (latestPerPanel db 100) ∧
    getSolarData db (some s) = Except.error invalidLimitMsg := by
  refine ⟨rfl, rfl, ?_⟩
  have hps : parseLimitParam (some s) 100 = Except.error invalidLimitMsg := by
    show (if s = "" then Except.ok 100 else
      match pgParseNat s with
      | some n => Except.ok n
      | none => Except.error invalidLimitMsg) = Except.error invalidLimitMsg
    rw [if_neg h1, h2]
  unfold getSolarData
  rw [hps]
  rfl

/-- Witness for C9's amended statement at the concrete non-numeric limit abc
on the fresh state. -/
theorem limit_default_falsy_only_witness :
    getSolarData initialDB (some "abc") = Except.error invalidLimitMsg :=
  (limit_default_falsy_only initialDB "abc" (by decide) (by decide)).2.2

/-- C10 counterexample: a panel whose dirtLevel is null is not a number, yet
it is counted as clean: JavaScript coerces null to 0, so null < 10 holds and
the claim that every non-number dirtLevel counts toward neither bucket fails
(the claim requires a clean count of 0 here). -/
theorem null_dirt_counted_clean :
    cleanCount [nullDirtPanel] = 1 ∧ dirtyCount [nullDirtPanel] = 0 :=
  ⟨rfl, rfl⟩

/-- C10 amended: a panel whose dirtLevel fails numeric coercion entirely
(undefined/missing, or any value coercing to NaN such as a non-numeric
string) counts toward neither the clean nor the dirty bucket; but not every
non-number is excluded, since values like null coerce to a number and can be
counted (null counts as clean). -/
theorem nan_dirt_counts_neither (p : PanelInput) (rest : List PanelInput)
    (h : toNumber p.dirtLevel = none) :
    cleanCount (p :: rest) = cleanCount rest ∧
    dirtyCount (p :: rest) = dirtyCount rest := by
  have hlt : jsLtNum p.dirtLevel 10 = false := by
    unfold jsLtNum
    rw [h]
  have hge : jsGeNum p.dirtLevel 30 = false := by
    unfold jsGeNum
    rw [h]
  unfold cleanCount dirtyCount
  rw [List.filter_cons, List.filter_cons, hlt, hge]
  simp

/-- Witness for C10's amended statement: a panel with an undefined dirtLevel
contributes to neither count. -/
theorem nan_dirt_counts_neither_witness :
    cleanCount [undefDirtPanel] = cleanCount [] ∧
    dirtyCount [undefDirtPanel] = dirtyCount [] :=
  nan_dirt_counts_neither undefDirtPanel [] rfl
